import Mathlib

/-
Verification development for the cc-health-check CLI (src/cli.mjs).

The rule-evaluation engine is shallowly embedded: hook entries, instruction
text and marker-file existence flags become an explicit `CollectedInputs`
record (in the source these are module-level globals computed once at
startup); each of the twenty check predicates becomes a total Lean function
of that record; `runChecks`, the grade thresholds, `printJSON` and the exit
code become pure functions.  File-system reads that happen inside a
predicate (the `fileContains` probe of hook script files in check 1) are
modelled as a boolean oracle field of `CollectedInputs`.  JavaScript string
search (`String.prototype.includes`, `endsWith`, `split(/\s+/)`,
`toLowerCase`) is re-implemented on `List Char`; the secret-detection regex
of check 2 is compiled by hand into an explicit scanner.  JavaScript numbers
are modelled as `Nat` (all quantities here are small non-negative integers)
and `Math.round((e/t)*100)` as exact rational rounding, which agrees with
IEEE doubles at these magnitudes.
-/

namespace HealthCheck

/-! ## String utilities (JS string semantics on `List Char`) -/

/-- Models `needle` being a prefix of the character list. -/
def startsWithChars : List Char → List Char → Bool
  | [], _ => true
  | _ :: _, [] => false
  | p :: ps, c :: cs => p == c && startsWithChars ps cs

/-- Models JS `s.includes(pat)` on character lists: `pat` occurs as a
contiguous run somewhere in the list (any suffix has it as a prefix). -/
def hasSubChars (pat : List Char) : List Char → Bool
  | [] => startsWithChars pat []
  | c :: cs => startsWithChars pat (c :: cs) || hasSubChars pat cs

/-- JS `s.includes(pat)`. -/
def strContains (s pat : String) : Bool :=
  hasSubChars pat.data s.data

/-- JS `s.endsWith(suf)`. -/
def endsWithStr (s suf : String) : Bool :=
  startsWithChars suf.data.reverse s.data.reverse

/-- JS `s.toLowerCase()` (ASCII range; the inspected keywords are ASCII). -/
def myLower (s : String) : String :=
  ⟨s.data.map Char.toLower⟩

/-- JS `array.join('\n')`. -/
def joinNL : List String → String
  | [] => ""
  | [x] => x
  | x :: y :: xs => x ++ "\n" ++ joinNL (y :: xs)

/-- Splits a character list at every separator character, keeping empty
fields, exactly like `String.split` on a predicate.  JS `split(/\s+/)`
collapses inner runs of whitespace instead, but the two differ only by
extra empty fields, and the single consumer below (`find?` of a part ending
in a script extension) ignores empty fields, so the results coincide. -/
def splitFieldsAux (p : Char → Bool) : List Char → List (List Char)
  | [] => [[]]
  | c :: cs =>
    let r := splitFieldsAux p cs
    if p c then [] :: r
    else
      match r with
      | f :: fs => (c :: f) :: fs
      | [] => [[c]]

/-- JS `s.split(/\s+/)` up to empty fields (see `splitFieldsAux`). -/
def splitWsStrings (s : String) : List String :=
  (splitFieldsAux (fun c => c.isWhitespace) s.data).map (fun cs => ⟨cs⟩)

/-! ## Secret-detection regex of check 2

The source tests `claudeMdContents` (already lower-cased) against
`/sk-[a-z0-9]{20,}|ghp_[a-z0-9]{36}|token\s*[:=]\s*["'][^"']{20,}/i`.
We compile the three alternatives into an explicit scanner over every
suffix of the text. -/

def isAlnumLower (c : Char) : Bool :=
  ('a' ≤ c && c ≤ 'z') || ('0' ≤ c && c ≤ '9')

/-- A double or single quote (`["']` in the regex). -/
def isQuoteChar (c : Char) : Bool :=
  c == '"' || c == Char.ofNat 39

/-- Does one of the three regex alternatives match starting exactly here? -/
def matchSecretAt (cs : List Char) : Bool :=
  (startsWithChars "sk-".data cs &&
    decide (20 ≤ ((cs.drop 3).takeWhile isAlnumLower).length)) ||
  (startsWithChars "ghp_".data cs &&
    decide (36 ≤ ((cs.drop 4).takeWhile isAlnumLower).length)) ||
  (startsWithChars "token".data cs &&
    (match (cs.drop 5).dropWhile Char.isWhitespace with
     | [] => false
     | c :: r2 =>
       (c == ':' || c == '=') &&
       (match r2.dropWhile Char.isWhitespace with
        | [] => false
        | q :: r4 =>
          isQuoteChar q &&
          decide (20 ≤ (r4.takeWhile (fun d => !(isQuoteChar d))).length))))

/-- Tries the scanner at every suffix. -/
def anyTail (p : List Char → Bool) : List Char → Bool
  | [] => p []
  | c :: cs => p (c :: cs) || anyTail p cs

/-- JS `claudeMdContents.match(<secret regex>)` viewed as a boolean. -/
def hasSecretPattern (s : String) : Bool :=
  anyTail matchSecretAt s.data

/-! ## Data model -/

/-- One normalized hook entry: `{ event, command }` in `getAllHookCommands`. -/
structure Hook where
  event : String
  command : String
deriving DecidableEq

/-- Existence flags for the well-known marker files and directories probed
by `existsSync` in the source (lines 124-127 and inside the predicates).
Each flag stands for the disjunction of the `existsSync` calls at one
probe site; `existsSync` never throws, so a plain `Bool` is faithful. -/
structure MarkerFlags where
  hasMemoryDir : Bool
  hasMissionMd : Bool
  hasCredFile : Bool
  hasDodFile : Bool
  hasProofLogDir : Bool
  hasWatchdogScript : Bool
  hasTaskQueueFile : Bool
  hasDecisionLog : Bool
  hasLessonsFile : Bool
deriving DecidableEq

/-- The immutable per-run snapshot the predicates read.  In the source these
are the module globals `allHooks`, `claudeMdContents` and the marker flags;
`scriptFileSafe sf` abstracts the predicate-internal file probe
`fileContains(sf.startsWith('/') ? sf : join(HOME, sf), ['rm -rf',
'reset --hard', 'force', 'block', 'deny', 'BLOCK'])` of check 1, which
returns `false` on any read error. -/
structure CollectedInputs where
  allHooks : List Hook
  claudeMdContents : String
  flags : MarkerFlags
  scriptFileSafe : String → Bool

/-- `allHooks.map(h => h.command).join('\n').toLowerCase()` (line 105). -/
def allHookText (i : CollectedInputs) : String :=
  myLower (joinNL (i.allHooks.map Hook.command))

/-- What one predicate invocation returns: `{ pass, detail }`. -/
structure Outcome where
  pass : Bool
  detail : String
deriving DecidableEq

/-- One entry of the `checks` registry:
`{ cat, q, w, test, fix }`. -/
structure Check where
  cat : String
  q : String
  w : Nat
  test : CollectedInputs → Outcome
  fix : String

/-! ## Hook-configuration document and the Collector -/

/-- A hook object `{ type, command }` (or `{ script }`) inside the nested
Claude Code format. -/
structure HookObj where
  command : Option String
  script : Option String
deriving DecidableEq

/-- One matcher entry under an event key: either a bare command string or
an object, which in the nested format carries a `hooks` array. -/
inductive MatcherVal where
  | str : String → MatcherVal
  | obj : Option String → Option String → Option (List HookObj) → MatcherVal
deriving DecidableEq

/-- The parsed settings document; `hooks := none` models a falsy or absent
`settings.hooks`.  The per-event value is already coerced to a list
(`Array.isArray(matchers) ? matchers : [matchers]`). -/
structure Settings where
  hooks : Option (List (String × List MatcherVal))
deriving DecidableEq

/-- JS `a || b || ''` on two optional strings (empty string is falsy). -/
def orStr (a b : Option String) : String :=
  let x := a.getD ""
  if x ≠ "" then x else b.getD ""

/-- `getAllHookCommands` (lines 80-100): walk every event's matcher list;
a matcher with a `hooks` array contributes each inner hook's
`command || script`, otherwise the matcher itself is a command string or a
flat `{ command }` object; empty commands are dropped. -/
def getAllHookCommands (settings : Settings) : List Hook :=
  match settings.hooks with
  | none => []
  | some entries =>
    entries.foldl (fun all ev =>
      ev.2.foldl (fun all m =>
        match m with
        | .obj _ _ (some hs) =>
          hs.foldl (fun all h =>
            let cmd := orStr h.command h.script
            if cmd ≠ "" then all ++ [⟨ev.1, cmd⟩] else all) all
        | .str s =>
          if s ≠ "" then all ++ [⟨ev.1, s⟩] else all
        | .obj cmd scr none =>
          let c := orStr cmd scr
          if c ≠ "" then all ++ [⟨ev.1, c⟩] else all) all) []

/-- `readJSON` (lines 36-42): `JSON.parse` inside `try`, returning `null`
on any read or parse failure.  The argument is the outcome of the attempted
parse; `.error` is a thrown exception caught by the `catch` branch. -/
def readJSON (parseResult : Except String Settings) : Option Settings :=
  match parseResult with
  | .ok s => some s
  | .error _ => none

/-- Lines 103-104: `settings ? getAllHookCommands(settings) : []`. -/
def collectHooks (parseResult : Except String Settings) : List Hook :=
  match readJSON parseResult with
  | some s => getAllHookCommands s
  | none => []

/-- The Collector boundary: build the run snapshot from the settings parse
outcome, the concatenated raw CLAUDE.md text (lower-cased here, as at line
120) and the marker flags. -/
def mkInputs (parseResult : Except String Settings) (claudeMdRaw : String)
    (flags : MarkerFlags) (scriptSafe : String → Bool) : CollectedInputs where
  allHooks := collectHooks parseResult
  claudeMdContents := myLower claudeMdRaw
  flags := flags
  scriptFileSafe := scriptSafe

/-! ## The 20-check registry (lines 130-439) -/

def checks : List Check := [
  -- Safety Guards (4 checks, 5 pts each)
  { cat := "Safety Guards",
    q := "PreToolUse hook blocks dangerous commands (rm -rf, git reset --hard)",
    w := 5,
    test := fun i =>
      let preHooks := i.allHooks.filter (fun h => strContains (myLower h.event) "pretooluse")
      if preHooks.length = 0 then ⟨false, "No PreToolUse hooks found"⟩
      else
        let hasGuard := preHooks.any (fun h =>
          let cmd := myLower h.command
          strContains cmd "rm" || strContains cmd "guard" || strContains cmd "safe" ||
            strContains cmd "block" || strContains cmd "deny" || strContains cmd "cdp")
        let scriptFiles := (preHooks.map (fun h =>
          (splitWsStrings h.command).find? (fun p =>
            endsWithStr p ".sh" || endsWithStr p ".js" || endsWithStr p ".py"))).filterMap id
        match scriptFiles.find? (fun sf => i.scriptFileSafe sf) with
        | some sf => ⟨true, "Safety hook found: " ++ sf⟩
        | none =>
          if hasGuard then
            ⟨true, toString preHooks.length ++ " PreToolUse hook(s) with safety patterns"⟩
          else
            ⟨false, toString preHooks.length ++ " PreToolUse hook(s) found but no safety patterns detected"⟩,
    fix := "Add a PreToolUse hook that blocks destructive commands. A single shell script can catch rm -rf, force push, and database drops." },
  { cat := "Safety Guards",
    q := "API keys stored in dedicated files (not hardcoded in CLAUDE.md)",
    w := 5,
    test := fun i =>
      if hasSecretPattern i.claudeMdContents then
        ⟨false, "Possible API key found in CLAUDE.md"⟩
      else
        ⟨true, if i.flags.hasCredFile then "Credentials stored in dedicated file"
               else "No leaked keys detected in CLAUDE.md"⟩,
    fix := "Move API keys out of CLAUDE.md into ~/.credentials or environment variables." },
  { cat := "Safety Guards",
    q := "Setup prevents pushing to main/master without review",
    w := 5,
    test := fun i =>
      let t := allHookText i
      let hasBranchGuard := strContains t "main" || strContains t "master" ||
        strContains t "branch" || strContains t "push"
      let claudeHasRule := strContains i.claudeMdContents "feature branch" ||
        (strContains i.claudeMdContents "push" && strContains i.claudeMdContents "main")
      if hasBranchGuard || claudeHasRule then ⟨true, "Branch protection detected"⟩
      else ⟨false, "No branch protection rules found"⟩,
    fix := "Add a PreToolUse hook that checks the target branch before git push. Block direct pushes to main/master." },
  { cat := "Safety Guards",
    q := "Error-aware gate blocks external calls when errors exist",
    w := 5,
    test := fun i =>
      let t := allHookText i
      let hasErrGate := strContains t "error" || strContains t "err-tracker" ||
        strContains t "err_code"
      let claudeHasErrRule := strContains i.claudeMdContents "error" &&
        strContains i.claudeMdContents "block"
      if hasErrGate || claudeHasErrRule then ⟨true, "Error-aware gating detected"⟩
      else ⟨false, "No error-aware gate found"⟩,
    fix := "Add an error-tracker that prevents publishing or pushing when unresolved errors exist." },
  -- Code Quality (4 checks, 5 pts each)
  { cat := "Code Quality",
    q := "Syntax checks run after every file edit (PostToolUse hook)",
    w := 5,
    test := fun i =>
      let postHooks := i.allHooks.filter (fun h => strContains (myLower h.event) "posttooluse")
      let hasSyntaxHook := postHooks.any (fun h =>
        let cmd := myLower h.command
        strContains cmd "syntax" || strContains cmd "compile" || strContains cmd "lint" ||
          strContains cmd "py_compile" || strContains cmd "eslint" || strContains cmd "check")
      if hasSyntaxHook then ⟨true, "Post-edit syntax checking configured"⟩
      else ⟨false, "No syntax check hook found in PostToolUse"⟩,
    fix := "Add a PostToolUse hook on Edit/Write that runs language-specific syntax checks (py_compile, eslint, bash -n)." },
  { cat := "Code Quality",
    q := "Error detection and tracking from command output",
    w := 5,
    test := fun i =>
      let t := allHookText i
      let hasErrDetect := strContains t "error" || strContains t "stderr" ||
        strContains t "exit_code" || strContains t "err-code"
      if hasErrDetect then ⟨true, "Error detection patterns found in hooks"⟩
      else ⟨false, "No error detection in command output"⟩,
    fix := "Scan bash output for error patterns in PostToolUse hooks. Track repeated errors and escalate." },
  { cat := "Code Quality",
    q := "Definition of Done (DoD) checklist exists for task completion",
    w := 5,
    test := fun i =>
      let md := i.claudeMdContents
      let hasDod := strContains md "definition of done" || strContains md "dod" ||
        strContains md "done checklist" || strContains md "completion criteria"
      if hasDod || i.flags.hasDodFile then ⟨true, "DoD criteria found"⟩
      else ⟨false, "No Definition of Done checklist detected"⟩,
    fix := "Define what \"done\" means: tests pass, no open errors, syntax clean, docs updated." },
  { cat := "Code Quality",
    q := "AI verifies its own output (screenshots, GET requests after publishing)",
    w := 5,
    test := fun i =>
      let md := i.claudeMdContents
      let hasVerify := strContains md "verify" || strContains md "screenshot" ||
        strContains md "confirmation" || strContains md "proof"
      if hasVerify then ⟨true, "Output verification instructions found"⟩
      else ⟨false, "No output verification pattern detected"⟩,
    fix := "Add verification steps to your workflow: after publishing or deploying, confirm the result matches expectations." },
  -- Monitoring (3 checks, 5 pts each)
  { cat := "Monitoring",
    q := "Context window usage monitored with alerts before it fills up",
    w := 5,
    test := fun i =>
      let t := allHookText i
      let hasContextMon := strContains t "context" || strContains t "compact" ||
        strContains t "token"
      if hasContextMon then ⟨true, "Context window monitoring detected"⟩
      else ⟨false, "No context window monitoring"⟩,
    fix := "Add a PostToolUse hook that checks context percentage and alerts before it fills up. Auto-compact at critical levels." },
  { cat := "Monitoring",
    q := "Activity logging tracks what commands ran, when, and what changed",
    w := 5,
    test := fun i =>
      let t := allHookText i
      let hasActivityLog := strContains t "activity" || strContains t "log" ||
        strContains t "jsonl" || strContains t "audit"
      if hasActivityLog then ⟨true, "Activity logging detected"⟩
      else ⟨false, "No activity logging configured"⟩,
    fix := "Add a PostToolUse hook that logs every tool use to a JSONL file with timestamps." },
  { cat := "Monitoring",
    q := "Daily summaries of AI work are generated (proof-log, session reports)",
    w := 5,
    test := fun i =>
      let t := allHookText i
      let hasProofLog := strContains t "proof" || strContains t "summary" ||
        strContains t "session" || strContains t "digest"
      if hasProofLog || i.flags.hasProofLogDir then ⟨true, "Daily summarization configured"⟩
      else ⟨false, "No daily summary generation"⟩,
    fix := "Write a Stop hook that generates a 5W1H summary at session end. Makes handoffs and audits trivial." },
  -- Recovery (3 checks, 5 pts each)
  { cat := "Recovery",
    q := "Git backup branches created before major changes",
    w := 5,
    test := fun i =>
      let md := i.claudeMdContents
      let hasBackup := strContains md "backup" || strContains md "backup/before"
      if hasBackup then ⟨true, "Backup branch instructions found in CLAUDE.md"⟩
      else ⟨false, "No backup branch strategy detected"⟩,
    fix := "Add \"git checkout -b backup/before-changes\" to your CLAUDE.md instructions before risky operations." },
  { cat := "Recovery",
    q := "Watchdog detects and recovers from hangs/idle states",
    w := 5,
    test := fun i =>
      let t := allHookText i
      let hasWatchdog := strContains t "watchdog" || strContains t "idle" ||
        strContains t "nudge" || strContains t "heartbeat"
      if hasWatchdog || i.flags.hasWatchdogScript then ⟨true, "Watchdog mechanism detected"⟩
      else ⟨false, "No watchdog for hang/idle detection"⟩,
    fix := "Implement a tmux-based watchdog that detects idle/frozen states and automatically nudges or restarts the agent." },
  { cat := "Recovery",
    q := "Fallback plan exists for when AI gets stuck in a loop",
    w := 5,
    test := fun i =>
      let md := i.claudeMdContents
      let t := allHookText i
      let hasLoopDetect := strContains md "loop" || strContains md "retry" ||
        strContains md "3 times" || strContains md "escalat"
      let hasRootCause := strContains t "root-cause" || strContains t "loop"
      if hasLoopDetect || hasRootCause then ⟨true, "Loop detection / retry limits found"⟩
      else ⟨false, "No loop detection or retry limits"⟩,
    fix := "Track repeated command patterns. If the same error appears 3+ times, break the loop and escalate." },
  -- Autonomy (3 checks, 5 pts each)
  { cat := "Autonomy",
    q := "AI can run tasks from a queue without human prompting",
    w := 5,
    test := fun i =>
      let md := i.claudeMdContents
      let claudeHasQueue := strContains md "task queue" || strContains md "task-queue"
      if i.flags.hasTaskQueueFile || claudeHasQueue then ⟨true, "Task queue mechanism found"⟩
      else ⟨false, "No task queue for autonomous execution"⟩,
    fix := "Create a task-queue.yaml with status tracking (pending/in-progress/done) that the AI reads and executes." },
  { cat := "Autonomy",
    q := "Setup blocks the AI from asking unnecessary questions",
    w := 5,
    test := fun i =>
      let t := allHookText i
      let md := i.claudeMdContents
      let hasNoAsk := strContains t "no-ask" || strContains t "question" ||
        strContains md "don\x27t ask" || strContains md "質問" ||
        strContains md "自分で判断"
      if hasNoAsk then ⟨true, "Question-blocking rules detected"⟩
      else ⟨false, "No rules to prevent unnecessary questions"⟩,
    fix := "Add a hook or CLAUDE.md rule that redirects question-asking patterns to autonomous decision-making." },
  { cat := "Autonomy",
    q := "AI can continue working across session restarts (persistent state)",
    w := 5,
    test := fun i =>
      let md := i.claudeMdContents
      let hasPersist := i.flags.hasMemoryDir || i.flags.hasMissionMd ||
        strContains md "memory" || strContains md "mission.md" ||
        strContains md "persistent"
      if hasPersist then ⟨true, "State persistence mechanism found"⟩
      else ⟨false, "No persistent state mechanism"⟩,
    fix := "Use mission.md or MEMORY.md to maintain state across context compactions and session restarts." },
  -- Coordination (3 checks, 5+3+2 pts)
  { cat := "Coordination",
    q := "Decision audit trail logs why each decision was made",
    w := 5,
    test := fun i =>
      let t := allHookText i
      let hasDecLog := strContains t "decision" || strContains t "rationale" ||
        i.flags.hasDecisionLog
      if hasDecLog then ⟨true, "Decision logging found"⟩
      else ⟨false, "No decision audit trail"⟩,
    fix := "Track decisions with rationale — what was decided, why, and what alternatives were rejected." },
  { cat := "Coordination",
    q := "AI can coordinate with other AI instances or tools",
    w := 3,
    test := fun i =>
      let md := i.claudeMdContents
      let t := allHookText i
      let hasCoord := strContains md "multi-agent" || strContains md "codex" ||
        strContains md "team" || strContains md "subagent" ||
        strContains t "relay" || strContains t "tachikoma"
      if hasCoord then ⟨true, "Multi-agent coordination found"⟩
      else ⟨false, "No multi-agent coordination"⟩,
    fix := "Enable file-based or tmux-based messaging between AI instances for parallel work." },
  { cat := "Coordination",
    q := "Structured way to capture and reuse lessons learned",
    w := 2,
    test := fun i =>
      let md := i.claudeMdContents
      let hasLessons := i.flags.hasLessonsFile ||
        strContains md "lesson" || strContains md "教訓"
      if hasLessons then ⟨true, "Lesson capture mechanism found"⟩
      else ⟨false, "No structured lesson capture"⟩,
    fix := "Maintain a LESSONS.md file to log errors and their fixes for future reference." }
]

/-! ## The Scoring Engine (`runChecks`, lines 442-470)

JavaScript objects `dimScores` / `dimTotals` are modelled as insertion-ordered
association lists: assignment to an existing key updates in place, a new key
is appended, matching `Object.entries` enumeration order for string keys. -/

/-- First-occurrence lookup, i.e. JS property read (`undefined` = `none`). -/
def lookupA : List (String × Nat) → String → Option Nat
  | [], _ => none
  | (k, v) :: rest, key => if k = key then some v else lookupA rest key

/-- JS property write: update the first occurrence, else append. -/
def setA : List (String × Nat) → String → Nat → List (String × Nat)
  | [], k, v => [(k, v)]
  | (k', v') :: rest, k, v =>
    if k' = k then (k', v) :: rest else (k', v') :: setA rest k v

/-- Read with JS `undefined`-as-0 never arising (key always present when
the source does `+=`); `0` default for uniform statements. -/
def getDA (m : List (String × Nat)) (k : String) : Nat :=
  (lookupA m k).getD 0

/-- JS falsiness of `dimScores[ch.cat]`: `undefined` or `0`. -/
def jsFalsy (o : Option Nat) : Bool :=
  match o with
  | none => true
  | some n => n == 0

/-- One row pushed onto `results`:
`{ cat, q, w, fix, result, pts }`. -/
structure CheckRow where
  cat : String
  q : String
  w : Nat
  fix : String
  result : Outcome
  pts : Nat
deriving DecidableEq

/-- The mutable loop state of `runChecks`. -/
structure RState where
  earned : Nat
  results : List CheckRow
  dimScores : List (String × Nat)
  dimTotals : List (String × Nat)
deriving DecidableEq

/-- The body of the `for (const ch of checks)` loop once the predicate's
outcome is known: the falsy-guard initialisation of both dimension maps,
`dimTotals[ch.cat] += ch.w`, point award, and the `results` push. -/
def applyOutcome (st : RState) (cat q : String) (w : Nat) (fx : String)
    (result : Outcome) : RState :=
  let ds := if jsFalsy (lookupA st.dimScores cat) then setA st.dimScores cat 0 else st.dimScores
  let dt := if jsFalsy (lookupA st.dimScores cat) then setA st.dimTotals cat 0 else st.dimTotals
  let dt := setA dt cat (getDA dt cat + w)
  let pts := if result.pass then w else 0
  { earned := st.earned + pts
    results := st.results ++ [⟨cat, q, w, fx, result, pts⟩]
    dimScores := setA ds cat (getDA ds cat + pts)
    dimTotals := dt }

/-- One loop iteration for a total (never-throwing) predicate. -/
def stepCheck (i : CollectedInputs) (st : RState) (ch : Check) : RState :=
  applyOutcome st ch.cat ch.q ch.w ch.fix (ch.test i)

/-- `Math.round((earned / totalPts) * 100)` for non-negative quantities:
`⌊100·e/t + 1/2⌋` computed exactly over the integers. -/
def jsRound100 (e t : Nat) : Nat :=
  (200 * e + t) / (2 * t)

/-- The grade threshold table (lines 463-467): top-down, first match wins,
lower bounds inclusive. -/
def gradeOf (pct : Nat) : String :=
  if 80 ≤ pct then "Production Ready"
  else if 60 ≤ pct then "Getting There"
  else if 35 ≤ pct then "Needs Work"
  else "Critical"

/-- `runChecks`' terminal artifact:
`{ results, dimScores, dimTotals, earned, totalPts, pct, grade }`. -/
structure Report where
  results : List CheckRow
  dimScores : List (String × Nat)
  dimTotals : List (String × Nat)
  earned : Nat
  totalPts : Nat
  pct : Nat
  grade : String
deriving DecidableEq

/-- The loop state of `runChecks` after all twenty iterations. -/
def runState (i : CollectedInputs) : RState :=
  checks.foldl (stepCheck i) ⟨0, [], [], []⟩

/-- The tail of `runChecks` (lines 462-469): percent, grade and the
returned result object, as a function of the final loop state. -/
def mkReport (st : RState) : Report :=
  { results := st.results
    dimScores := st.dimScores
    dimTotals := st.dimTotals
    earned := st.earned
    totalPts := checks.foldl (fun s ch => s + ch.w) 0
    pct := jsRound100 st.earned (checks.foldl (fun s ch => s + ch.w) 0)
    grade := gradeOf (jsRound100 st.earned (checks.foldl (fun s ch => s + ch.w) 0)) }

/-- `runChecks` (lines 442-470) over the fixed registry. -/
def runChecks (i : CollectedInputs) : Report :=
  mkReport (runState i)

/-! ## The engine with possibly-throwing predicates

`runChecks` contains no `try`/`catch`: `const result = ch.test()` lets any
exception propagate out of the loop and abort the run.  To reason about
that boundary we re-state the same loop over predicates that may throw
(`Except String` = normal return vs. thrown exception); the loop body and
aggregation are shared with the total engine via `applyOutcome`. -/

/-- A check definition whose predicate may throw. -/
structure CheckE where
  cat : String
  q : String
  w : Nat
  test : CollectedInputs → Except String Outcome
  fix : String

/-- One loop iteration: a thrown predicate exception propagates. -/
def stepCheckE (i : CollectedInputs) (st : RState) (ch : CheckE) :
    Except String RState :=
  match ch.test i with
  | .error e => .error e
  | .ok result => .ok (applyOutcome st ch.cat ch.q ch.w ch.fix result)

/-- The `for` loop: the first uncaught exception aborts the whole run. -/
def foldChecksE (i : CollectedInputs) : RState → List CheckE → Except String RState
  | st, [] => .ok st
  | st, ch :: rest =>
    match stepCheckE i st ch with
    | .error e => .error e
    | .ok st' => foldChecksE i st' rest

/-- `runChecks` over an arbitrary registry of possibly-throwing predicates;
an uncaught predicate exception yields `.error` (no report at all). -/
def runChecksE (registry : List CheckE) (i : CollectedInputs) :
    Except String Report :=
  match foldChecksE i ⟨0, [], [], []⟩ registry with
  | .error e => .error e
  | .ok st =>
    .ok { results := st.results
          dimScores := st.dimScores
          dimTotals := st.dimTotals
          earned := st.earned
          totalPts := registry.foldl (fun s ch => s + ch.w) 0
          pct := jsRound100 st.earned (registry.foldl (fun s ch => s + ch.w) 0)
          grade := gradeOf (jsRound100 st.earned (registry.foldl (fun s ch => s + ch.w) 0)) }

/-- A total predicate viewed as a never-throwing one. -/
def liftC (ch : Check) : CheckE :=
  ⟨ch.cat, ch.q, ch.w, fun i => .ok (ch.test i), ch.fix⟩

/-- The shipped registry embedded into the throwing-predicate world. -/
def checksE : List CheckE := checks.map liftC

/-! ## Renderers and exit status -/

/-- One entry of `output.dimensions` in `printJSON` (lines 552-558). -/
structure DimOut where
  cat : String
  score : Nat
  total : Nat
  percent : Nat
deriving DecidableEq

/-- One entry of `output.checks` in `printJSON` (lines 559-568):
`fix` is `undefined` (omitted from the serialized document) for a passed
check and the remediation text for a failed one. -/
structure CheckOut where
  dimension : String
  check : String
  pass : Bool
  detail : String
  weight : Nat
  fix : Option String
deriving DecidableEq

/-- The structured document built by `printJSON` (lines 542-570). -/
structure JsonOut where
  version : String
  score : Nat
  grade : String
  pointsEarned : Nat
  pointsTotal : Nat
  dimensions : List DimOut
  checksOut : List CheckOut
deriving DecidableEq

/-- `printJSON` (lines 542-570) as a pure function `Report → JsonOut`. -/
def printJSON (d : Report) : JsonOut where
  version := "1.0"
  score := d.pct
  grade := d.grade
  pointsEarned := d.earned
  pointsTotal := d.totalPts
  dimensions := d.dimTotals.map (fun kv =>
    ⟨kv.1, getDA d.dimScores kv.1, kv.2, jsRound100 (getDA d.dimScores kv.1) kv.2⟩)
  checksOut := d.results.map (fun r =>
    ⟨r.cat, r.q, r.result.pass, r.result.detail, r.w,
      if r.result.pass then none else some r.fix⟩)

/-- Line 597: `process.exit(data.pct >= 60 ? 0 : 1)`. -/
def exitCode (data : Report) : Nat :=
  if 60 ≤ data.pct then 0 else 1

/-! ## Concrete inputs used by the claims -/

/-- All marker flags false. -/
def noFlags : MarkerFlags :=
  ⟨false, false, false, false, false, false, false, false, false⟩

/-- The degenerate snapshot of §8 of the spec: empty hook list, empty
instruction text, every marker flag false (and the check-1 file probe,
unreachable with no hooks, finds nothing). -/
def emptyInputs : CollectedInputs :=
  ⟨[], "", noFlags, fun _ => false⟩

/-- Registry index access used to speak about an individual check's
outcome on a given snapshot. -/
def checkOutcome (n : Nat) (i : CollectedInputs) : Option Outcome :=
  (checks.get? n).map (fun ch => ch.test i)

/-- Sum of registry weights within one category. -/
def catTotal (cat : String) : Nat :=
  ((checks.filter (fun ch => ch.cat = cat)).map (fun ch => ch.w)).sum

/-- Rank of the four grade bands, lowest band = 0, for monotonicity
statements. -/
def gradeRank (g : String) : Nat :=
  if g = "Production Ready" then 3
  else if g = "Getting There" then 2
  else if g = "Needs Work" then 1
  else 0

/-! ## Association-list lemmas (JS object semantics) -/

theorem lookupA_setA_self (m : List (String × Nat)) (k : String) (v : Nat) :
    lookupA (setA m k v) k = some v := by
  induction m with
  | nil => simp [setA, lookupA]
  | cons kv rest ih =>
    obtain ⟨k', v'⟩ := kv
    by_cases h : k' = k
    · simp [setA, h, lookupA]
    · simp [setA, h, lookupA, ih]

theorem lookupA_setA_ne (m : List (String × Nat)) (k : String) (v : Nat)
    (k' : String) (h : k ≠ k') :
    lookupA (setA m k v) k' = lookupA m k' := by
  induction m with
  | nil => simp [setA, lookupA, h]
  | cons kv rest ih =>
    obtain ⟨k0, v0⟩ := kv
    by_cases h0 : k0 = k
    · subst h0
      simp [setA, lookupA, h]
    · simp [setA, h0, lookupA, ih]

theorem setA_setA (m : List (String × Nat)) (k : String) (a b : Nat) :
    setA (setA m k a) k b = setA m k b := by
  induction m with
  | nil => simp [setA]
  | cons kv rest ih =>
    obtain ⟨k0, v0⟩ := kv
    by_cases h0 : k0 = k
    · simp [setA, h0]
    · simp [setA, h0, ih]

theorem mem_setA_val (m : List (String × Nat)) (k : String) (v : Nat) :
    ∀ kv ∈ setA m k v, kv.2 = v ∨ kv ∈ m := by
  induction m with
  | nil => simp [setA]
  | cons kv0 rest ih =>
    obtain ⟨k0, v0⟩ := kv0
    intro kv hkv
    by_cases h0 : k0 = k
    · simp only [setA, h0, if_pos rfl] at hkv
      rcases List.mem_cons.1 hkv with h | h
      · left; rw [h]
      · right; exact List.mem_cons_of_mem _ h
    · simp only [setA, if_neg h0] at hkv
      rcases List.mem_cons.1 hkv with h | h
      · right; rw [h]; exact List.mem_cons_self _ _
      · rcases ih kv h with h' | h'
        · left; exact h'
        · right; exact List.mem_cons_of_mem _ h'

theorem mem_keys_setA (m : List (String × Nat)) (k : String) (v : Nat)
    (x : String) (hx : x ∈ (setA m k v).map Prod.fst) :
    x ∈ m.map Prod.fst ∨ x = k := by
  induction m with
  | nil => simpa [setA] using hx
  | cons kv0 rest ih =>
    obtain ⟨k0, v0⟩ := kv0
    by_cases h0 : k0 = k
    · subst h0
      rw [setA, if_pos rfl] at hx
      simp only [List.map_cons, List.mem_cons] at hx ⊢
      rcases hx with h | h
      · right; exact h
      · left; right; exact h
    · rw [setA, if_neg h0] at hx
      simp only [List.map_cons, List.mem_cons] at hx ⊢
      rcases hx with h | h
      · left; left; exact h
      · rcases ih h with h' | h'
        · left; right; exact h'
        · right; exact h'

theorem nodupKeys_setA (m : List (String × Nat)) (k : String) (v : Nat)
    (h : (m.map Prod.fst).Nodup) : ((setA m k v).map Prod.fst).Nodup := by
  induction m with
  | nil => simp [setA]
  | cons kv0 rest ih =>
    obtain ⟨k0, v0⟩ := kv0
    rw [List.map_cons, List.nodup_cons] at h
    by_cases h0 : k0 = k
    · simpa [setA, h0, List.nodup_cons] using h
    · rw [setA, if_neg h0, List.map_cons, List.nodup_cons]
      refine ⟨?_, ih h.2⟩
      intro hmem
      rcases mem_keys_setA rest k v k0 hmem with h' | h'
      · exact h.1 h'
      · exact h0 h'

theorem lookupA_of_mem_nodup (m : List (String × Nat))
    (h : (m.map Prod.fst).Nodup) (kv : String × Nat) (hm : kv ∈ m) :
    lookupA m kv.1 = some kv.2 := by
  induction m with
  | nil => cases hm
  | cons kv0 rest ih =>
    obtain ⟨k0, v0⟩ := kv0
    rw [List.map_cons, List.nodup_cons] at h
    rcases List.mem_cons.1 hm with heq | hmem
    · rw [heq]
      simp [lookupA]
    · have hk : kv.1 ∈ rest.map Prod.fst := List.mem_map_of_mem Prod.fst hmem
      have hne : k0 ≠ kv.1 := by
        intro hcontra
        rw [hcontra] at h
        exact h.1 hk
      rw [lookupA, if_neg hne]
      exact ih h.2 hmem

theorem getDA_setA_self (m : List (String × Nat)) (k : String) (v : Nat) :
    getDA (setA m k v) k = v := by
  rw [getDA, lookupA_setA_self]; rfl

theorem getDA_setA_ne (m : List (String × Nat)) (k : String) (v : Nat)
    (k' : String) (h : k ≠ k') : getDA (setA m k v) k' = getDA m k' := by
  rw [getDA, lookupA_setA_ne m k v k' h]; rfl

/-! ## Field lemmas for `applyOutcome` -/

theorem applyOutcome_earned (st : RState) (cat q : String) (w : Nat)
    (fx : String) (result : Outcome) :
    (applyOutcome st cat q w fx result).earned =
      st.earned + (if result.pass then w else 0) := by
  simp only [applyOutcome]

theorem applyOutcome_results (st : RState) (cat q : String) (w : Nat)
    (fx : String) (result : Outcome) :
    (applyOutcome st cat q w fx result).results =
      st.results ++ [⟨cat, q, w, fx, result, if result.pass then w else 0⟩] := by
  simp only [applyOutcome]

theorem applyOutcome_dimScores_falsy (st : RState) (cat q : String) (w : Nat)
    (fx : String) (result : Outcome)
    (hf : jsFalsy (lookupA st.dimScores cat) = true) :
    (applyOutcome st cat q w fx result).dimScores =
      setA st.dimScores cat (if result.pass then w else 0) := by
  simp only [applyOutcome, hf, if_true]
  rw [getDA_setA_self, Nat.zero_add, setA_setA]

theorem applyOutcome_dimTotals_falsy (st : RState) (cat q : String) (w : Nat)
    (fx : String) (result : Outcome)
    (hf : jsFalsy (lookupA st.dimScores cat) = true) :
    (applyOutcome st cat q w fx result).dimTotals = setA st.dimTotals cat w := by
  simp only [applyOutcome, hf, if_true]
  rw [getDA_setA_self, Nat.zero_add, setA_setA]

theorem applyOutcome_dimScores_nonfalsy (st : RState) (cat q : String) (w : Nat)
    (fx : String) (result : Outcome)
    (hf : ¬ jsFalsy (lookupA st.dimScores cat) = true) :
    (applyOutcome st cat q w fx result).dimScores =
      setA st.dimScores cat (getDA st.dimScores cat + (if result.pass then w else 0)) := by
  simp only [applyOutcome, hf, if_false, Bool.not_eq_true] at *
  simp [hf]

theorem applyOutcome_dimTotals_nonfalsy (st : RState) (cat q : String) (w : Nat)
    (fx : String) (result : Outcome)
    (hf : ¬ jsFalsy (lookupA st.dimScores cat) = true) :
    (applyOutcome st cat q w fx result).dimTotals =
      setA st.dimTotals cat (getDA st.dimTotals cat + w) := by
  simp [applyOutcome, hf]

/-! ## The run invariant -/

/-- Invariant maintained by every loop iteration of `runChecks`: per
category the earned points never exceed the category total, category
totals are positive, category keys are unique (JS object keys), and each
recorded check row awards its full weight or nothing. -/
structure StInv (st : RState) : Prop where
  pair : ∀ k, getDA st.dimScores k ≤ getDA st.dimTotals k
  pos : ∀ kv ∈ st.dimTotals, 0 < kv.2
  nodupT : ((st.dimTotals).map Prod.fst).Nodup
  rows : ∀ r ∈ st.results, r.pts = r.w ∨ r.pts = 0

theorem stInv_init : StInv ⟨0, [], [], []⟩ := by
  refine ⟨?_, ?_, ?_, ?_⟩ <;> simp [getDA, lookupA]

theorem stInv_applyOutcome (st : RState) (cat q : String) (w : Nat)
    (fx : String) (result : Outcome) (hw : 0 < w) (h : StInv st) :
    StInv (applyOutcome st cat q w fx result) := by
  have hpts : (if result.pass then w else 0) ≤ w := by
    by_cases hp : result.pass <;> simp [hp]
  by_cases hf : jsFalsy (lookupA st.dimScores cat) = true
  · refine ⟨?_, ?_, ?_, ?_⟩
    · intro k
      rw [applyOutcome_dimScores_falsy st cat q w fx result hf,
        applyOutcome_dimTotals_falsy st cat q w fx result hf]
      by_cases hk : cat = k
      · subst hk
        rw [getDA_setA_self, getDA_setA_self]
        exact hpts
      · rw [getDA_setA_ne _ _ _ _ hk, getDA_setA_ne _ _ _ _ hk]
        exact h.pair k
    · intro kv hkv
      rw [applyOutcome_dimTotals_falsy st cat q w fx result hf] at hkv
      rcases mem_setA_val st.dimTotals cat w kv hkv with h' | h'
      · rw [h']; exact hw
      · exact h.pos kv h'
    · rw [applyOutcome_dimTotals_falsy st cat q w fx result hf]
      exact nodupKeys_setA st.dimTotals cat w h.nodupT
    · intro r hr
      rw [applyOutcome_results st cat q w fx result] at hr
      rcases List.mem_append.1 hr with h' | h'
      · exact h.rows r h'
      · rcases List.mem_singleton.1 h' with rfl
        by_cases hp : result.pass <;> simp [hp]
  · refine ⟨?_, ?_, ?_, ?_⟩
    · intro k
      rw [applyOutcome_dimScores_nonfalsy st cat q w fx result hf,
        applyOutcome_dimTotals_nonfalsy st cat q w fx result hf]
      by_cases hk : cat = k
      · subst hk
        rw [getDA_setA_self, getDA_setA_self]
        exact Nat.add_le_add (h.pair cat) hpts
      · rw [getDA_setA_ne _ _ _ _ hk, getDA_setA_ne _ _ _ _ hk]
        exact h.pair k
    · intro kv hkv
      rw [applyOutcome_dimTotals_nonfalsy st cat q w fx result hf] at hkv
      rcases mem_setA_val st.dimTotals cat _ kv hkv with h' | h'
      · rw [h']; omega
      · exact h.pos kv h'
    · rw [applyOutcome_dimTotals_nonfalsy st cat q w fx result hf]
      exact nodupKeys_setA st.dimTotals cat _ h.nodupT
    · intro r hr
      rw [applyOutcome_results st cat q w fx result] at hr
      rcases List.mem_append.1 hr with h' | h'
      · exact h.rows r h'
      · rcases List.mem_singleton.1 h' with rfl
        by_cases hp : result.pass <;> simp [hp]

theorem stInv_foldl (i : CollectedInputs) :
    ∀ (cs : List Check) (st : RState),
      (∀ ch ∈ cs, 0 < ch.w) → StInv st → StInv (cs.foldl (stepCheck i) st) := by
  intro cs
  induction cs with
  | nil => intro st _ h; exact h
  | cons ch rest ih =>
    intro st hw h
    rw [List.foldl_cons]
    exact ih _ (fun c hc => hw c (List.mem_cons_of_mem _ hc))
      (stInv_applyOutcome st ch.cat ch.q ch.w ch.fix (ch.test i)
        (hw ch (List.mem_cons_self _ _)) h)

theorem earned_foldl_le (i : CollectedInputs) :
    ∀ (cs : List Check) (st : RState),
      (cs.foldl (stepCheck i) st).earned ≤
        st.earned + (cs.map (fun ch => ch.w)).sum := by
  intro cs
  induction cs with
  | nil => intro st; simp
  | cons ch rest ih =>
    intro st
    rw [List.foldl_cons, List.map_cons, List.sum_cons]
    calc (rest.foldl (stepCheck i) (stepCheck i st ch)).earned
        ≤ (stepCheck i st ch).earned + (rest.map (fun c => c.w)).sum := ih _
      _ ≤ st.earned + (ch.w + (rest.map (fun c => c.w)).sum) := by
          rw [stepCheck, applyOutcome_earned]
          have : (if (ch.test i).pass then ch.w else 0) ≤ ch.w := by
            by_cases hp : (ch.test i).pass <;> simp [hp]
          omega

theorem foldl_weight_sum :
    ∀ (cs : List Check) (n : Nat),
      cs.foldl (fun s ch => s + ch.w) n = n + (cs.map (fun ch => ch.w)).sum := by
  intro cs
  induction cs with
  | nil => intro n; simp
  | cons ch rest ih =>
    intro n
    rw [List.foldl_cons, ih, List.map_cons, List.sum_cons]
    omega

/-! ## Rounding and grade lemmas -/

theorem jsRound100_le_100 (e t : Nat) (h : e ≤ t) : jsRound100 e t ≤ 100 := by
  rcases Nat.eq_zero_or_pos t with ht | ht
  · subst ht
    simp [jsRound100]
  · have h2t : 0 < 2 * t := by omega
    have : 200 * e + t < 101 * (2 * t) := by omega
    have := (Nat.div_lt_iff_lt_mul h2t).2 this
    rw [jsRound100]
    omega

theorem jsRound100_mono (t : Nat) {e e' : Nat} (h : e ≤ e') :
    jsRound100 e t ≤ jsRound100 e' t := by
  rw [jsRound100, jsRound100]
  exact Nat.div_le_div_right (by omega)

theorem gradeRank_gradeOf_mono {p q : Nat} (h : p ≤ q) :
    gradeRank (gradeOf p) ≤ gradeRank (gradeOf q) := by
  unfold gradeOf
  split_ifs <;> first | decide | omega

theorem gradeOf_cases (p : Nat) :
    gradeOf p = "Production Ready" ∨ gradeOf p = "Getting There" ∨
      gradeOf p = "Needs Work" ∨ gradeOf p = "Critical" := by
  unfold gradeOf
  split_ifs <;> simp

/-! ## `runChecks` projection lemmas -/

theorem runChecks_eq_mkReport (i : CollectedInputs) :
    runChecks i = mkReport (runState i) := rfl

theorem mkReport_totalPts (st : RState) : (mkReport st).totalPts = 95 := rfl

theorem mkReport_pct (st : RState) :
    (mkReport st).pct = jsRound100 st.earned 95 := rfl

theorem mkReport_grade (st : RState) :
    (mkReport st).grade = gradeOf (jsRound100 st.earned 95) := rfl

theorem mkReport_earned (st : RState) : (mkReport st).earned = st.earned := rfl

theorem mkReport_results (st : RState) : (mkReport st).results = st.results := rfl

theorem mkReport_dimScores (st : RState) :
    (mkReport st).dimScores = st.dimScores := rfl

theorem mkReport_dimTotals (st : RState) :
    (mkReport st).dimTotals = st.dimTotals := rfl

theorem runChecks_totalPts (i : CollectedInputs) : (runChecks i).totalPts = 95 := by
  rw [runChecks_eq_mkReport, mkReport_totalPts]

theorem runChecks_earned_eq (i : CollectedInputs) :
    (runChecks i).earned = (runState i).earned := by
  rw [runChecks_eq_mkReport, mkReport_earned]

theorem runChecks_pct (i : CollectedInputs) :
    (runChecks i).pct = jsRound100 (runChecks i).earned 95 := by
  rw [runChecks_eq_mkReport, mkReport_pct, mkReport_earned]

theorem runChecks_grade (i : CollectedInputs) :
    (runChecks i).grade = gradeOf ((runChecks i).pct) := by
  rw [runChecks_eq_mkReport, mkReport_grade, mkReport_pct]

theorem runChecks_results_eq (i : CollectedInputs) :
    (runChecks i).results = (runState i).results := by
  rw [runChecks_eq_mkReport, mkReport_results]

theorem runChecks_dimScores_eq (i : CollectedInputs) :
    (runChecks i).dimScores = (runState i).dimScores := by
  rw [runChecks_eq_mkReport, mkReport_dimScores]

theorem runChecks_dimTotals_eq (i : CollectedInputs) :
    (runChecks i).dimTotals = (runState i).dimTotals := by
  rw [runChecks_eq_mkReport, mkReport_dimTotals]

theorem runState_eq (i : CollectedInputs) :
    runState i = checks.foldl (stepCheck i) ⟨0, [], [], []⟩ := rfl

theorem runChecks_earned_le (i : CollectedInputs) : (runChecks i).earned ≤ 95 := by
  have h := earned_foldl_le i checks ⟨0, [], [], []⟩
  have hsum : ((checks.map (fun ch => ch.w)).sum : Nat) = 95 := by decide
  have he : (runChecks i).earned = (checks.foldl (stepCheck i) ⟨0, [], [], []⟩).earned := by
    rw [runChecks_earned_eq, runState_eq]
  have h0 : (⟨0, [], [], []⟩ : RState).earned = 0 := rfl
  omega

/-! ## Claims -/

/-- C1 counterexample: the registry's per-category weight sums are not as
the claim enumerates.  The Code Quality category sums to 20 (neither 15
nor 10), and the grand total of all check weights is 95, not 100. -/
theorem c1_counterexample :
    catTotal "Code Quality" = 20 ∧
    ¬(catTotal "Code Quality" = 15 ∨ catTotal "Code Quality" = 10) ∧
    (checks.map (fun ch => ch.w)).sum = 95 ∧
    (runChecks emptyInputs).totalPts ≠ 100 := by
  refine ⟨by decide, by decide, by decide, by decide⟩

/-- C1 amended: the per-category weight sums of the Rule Registry are
Safety Guards 20, Code Quality 20, Monitoring 15, Recovery 15, Autonomy
15 and Coordination 10, so the grand total of all check weights — the
`overallTotal` of every run — is the constant 95. -/
theorem c1_amended :
    catTotal "Safety Guards" = 20 ∧ catTotal "Code Quality" = 20 ∧
    catTotal "Monitoring" = 15 ∧ catTotal "Recovery" = 15 ∧
    catTotal "Autonomy" = 15 ∧ catTotal "Coordination" = 10 ∧
    (checks.map (fun ch => ch.w)).sum = 95 ∧
    ∀ i : CollectedInputs, (runChecks i).totalPts = 95 := by
  refine ⟨by decide, by decide, by decide, by decide, by decide, by decide,
    by decide, fun i => rfl⟩

/-- A registry entry whose predicate throws (test input for the Scoring
Engine's claimed defensive boundary; the shipped predicates never throw). -/
def throwingCheck : CheckE :=
  ⟨"Safety Guards", "predicate that throws during evaluation", 5,
    fun _ => .error "TypeError: boom", "n/a"⟩

/-- Auxiliary: the engine loop over never-throwing predicates always
reaches the end of the registry with the same state as the total loop. -/
theorem foldChecksE_lift (i : CollectedInputs) :
    ∀ (cs : List Check) (st : RState),
      foldChecksE i st (cs.map liftC) = .ok (cs.foldl (stepCheck i) st) := by
  intro cs
  induction cs with
  | nil => intro st; rfl
  | cons ch rest ih =>
    intro st
    rw [List.map_cons, List.foldl_cons, foldChecksE]
    exact ih (stepCheck i st ch)

/-- C2 counterexample: `runChecks` contains no try/catch around
`ch.test()`.  Running the engine on the shipped registry extended with one
throwing predicate aborts the whole run with the exception instead of
recording a failed check and producing a RunReport. -/
theorem c2_counterexample :
    runChecksE (checksE ++ [throwingCheck]) emptyInputs =
      .error "TypeError: boom" := by
  rfl

/-- C2 amended: the Scoring Engine does not catch predicate exceptions —
a throwing predicate propagates and aborts the run with no RunReport.
The run always completes only because every shipped predicate is total
(its file reads are guarded inside `readJSON` / `fileContains`): over the
actual registry the throwing-predicate engine always returns the full
report of the total engine. -/
theorem c2_amended (i : CollectedInputs) :
    runChecksE checksE i = .ok (runChecks i) := by
  have h : foldChecksE i ⟨0, [], [], []⟩ checksE = .ok (runState i) :=
    foldChecksE_lift i checks ⟨0, [], [], []⟩
  rw [runChecksE, h, runChecks_eq_mkReport]
  rfl

/-- C3 counterexample: on the all-empty snapshot `overallEarned` is 5, not
0 — the API-key check passes (its pass condition is the absence of
secret-like matches in the instruction text, which holds vacuously). -/
theorem c3_counterexample :
    (runChecks emptyInputs).earned = 5 ∧ (runChecks emptyInputs).earned ≠ 0 := by
  refine ⟨by decide, by decide⟩

/-- C3 amended: every CollectedInputs with an empty hook list, empty
instruction text and all marker flags false yields `overallEarned = 5`
(only the API-key check passes), `overallPercent = 5`, and the lowest
grade band Critical. -/
theorem c3_amended (fs : String → Bool) :
    (runChecks { emptyInputs with scriptFileSafe := fs }).earned = 5 ∧
    (runChecks { emptyInputs with scriptFileSafe := fs }).pct = 5 ∧
    (runChecks { emptyInputs with scriptFileSafe := fs }).grade = "Critical" := by
  have he : (runChecks { emptyInputs with scriptFileSafe := fs }).earned = 5 := rfl
  refine ⟨he, ?_, ?_⟩
  · rw [runChecks_pct, he]
    rfl
  · rw [runChecks_grade, runChecks_pct, he]
    rfl

/-- C4: evaluation at the failing input (the all-empty snapshot).  The
`if (!dimScores[ch.cat])` guard treats a category whose score is still 0
as uninitialised and resets the category's accumulated total, so the
per-category totals come out as 15/5/5/5/5/2, summing to 37, while
`overallTotal` is 95: `Σ categoryTotal == overallTotal` fails, although
the `overallEarned`/`overallTotal`/`overallPercent` conjuncts hold here. -/
theorem c4_bug_eval :
    (runChecks emptyInputs).dimTotals =
      [("Safety Guards", 15), ("Code Quality", 5), ("Monitoring", 5),
       ("Recovery", 5), ("Autonomy", 5), ("Coordination", 2)] ∧
    ((runChecks emptyInputs).dimTotals.map Prod.snd).sum = 37 ∧
    (runChecks emptyInputs).totalPts = 95 ∧
    ((runChecks emptyInputs).dimTotals.map Prod.snd).sum ≠
      (runChecks emptyInputs).totalPts ∧
    (runChecks emptyInputs).earned =
      ((runChecks emptyInputs).results.map (fun r => r.pts)).sum ∧
    (runChecks emptyInputs).totalPts =
      ((runChecks emptyInputs).results.map (fun r => r.w)).sum ∧
    (runChecks emptyInputs).pct =
      jsRound100 (runChecks emptyInputs).earned (runChecks emptyInputs).totalPts := by
  refine ⟨by decide, by decide, by decide, by decide, by decide, by decide, by decide⟩

/-- C5: the grade band is `gradeOf overallPercent`, a fixed threshold
table evaluated top-down with inclusive lower bounds: ≥80 Production
Ready, ≥60 Getting There, ≥35 Needs Work, else Critical. -/
theorem c5_grade_bands (i : CollectedInputs) :
    (runChecks i).grade = gradeOf ((runChecks i).pct) ∧
    (80 ≤ (runChecks i).pct → (runChecks i).grade = "Production Ready") ∧
    (60 ≤ (runChecks i).pct → (runChecks i).pct < 80 →
      (runChecks i).grade = "Getting There") ∧
    (35 ≤ (runChecks i).pct → (runChecks i).pct < 60 →
      (runChecks i).grade = "Needs Work") ∧
    ((runChecks i).pct < 35 → (runChecks i).grade = "Critical") := by
  refine ⟨rfl, ?_, ?_, ?_, ?_⟩
  · intro h
    rw [runChecks_grade, gradeOf, if_pos h]
  · intro h1 h2
    rw [runChecks_grade, gradeOf, if_neg (by omega), if_pos h1]
  · intro h1 h2
    rw [runChecks_grade, gradeOf, if_neg (by omega), if_neg (by omega), if_pos h1]
  · intro h
    rw [runChecks_grade, gradeOf, if_neg (by omega), if_neg (by omega),
      if_neg (by omega)]

/-- C5 witness: on the all-empty snapshot the percent is below 35 and the
band is Critical. -/
theorem c5_witness :
    (runChecks emptyInputs).pct < 35 ∧ (runChecks emptyInputs).grade = "Critical" :=
  ⟨by decide, (c5_grade_bands emptyInputs).2.2.2.2 (by decide)⟩

/-- C6: grade banding is monotonic — two runs share the registry (hence
the same `overallTotal`), and if one run earns at least as many points as
another, its grade band ranks at least as high. -/
theorem c6_monotone (i1 i2 : CollectedInputs)
    (h : (runChecks i2).earned ≤ (runChecks i1).earned) :
    (runChecks i1).totalPts = (runChecks i2).totalPts ∧
    gradeRank ((runChecks i2).grade) ≤ gradeRank ((runChecks i1).grade) := by
  constructor
  · rw [runChecks_totalPts, runChecks_totalPts]
  · rw [runChecks_grade, runChecks_grade, runChecks_pct, runChecks_pct]
    exact gradeRank_gradeOf_mono (jsRound100_mono 95 h)

/-- C6 witness at a concrete pair of runs. -/
theorem c6_witness :
    (runChecks emptyInputs).earned ≤ (runChecks emptyInputs).earned ∧
    gradeRank ((runChecks emptyInputs).grade) ≤
      gradeRank ((runChecks emptyInputs).grade) :=
  ⟨by decide, (c6_monotone emptyInputs emptyInputs (by decide)).2⟩

/-- C7: the process exit status (line 597) is 0 iff `overallPercent ≥ 60`;
below 60 it is the non-zero status 1. -/
theorem c7_exit (i : CollectedInputs) :
    (exitCode (runChecks i) = 0 ↔ 60 ≤ (runChecks i).pct) ∧
    ((runChecks i).pct < 60 → exitCode (runChecks i) ≠ 0) := by
  by_cases h : 60 ≤ (runChecks i).pct
  · refine ⟨⟨fun _ => h, fun _ => ?_⟩, fun hlt => absurd h (by omega)⟩
    rw [exitCode, if_pos h]
  · refine ⟨⟨?_, fun hc => absurd hc h⟩, fun _ => ?_⟩
    · intro h0
      rw [exitCode, if_neg h] at h0
      exact absurd h0 one_ne_zero
    · rw [exitCode, if_neg h]
      exact one_ne_zero

/-- C7 witness: the all-empty snapshot scores below 60 and exits non-zero. -/
theorem c7_witness :
    (runChecks emptyInputs).pct < 60 ∧ exitCode (runChecks emptyInputs) ≠ 0 :=
  ⟨by decide, (c7_exit emptyInputs).2 (by decide)⟩

/-- C8: in the structured renderer's output, a check's remediation text is
absent exactly when the check passed (`fix: r.result.pass ? undefined :
r.fix`, and `undefined` properties are omitted from the document). -/
theorem printJSON_dimensions (d : Report) :
    (printJSON d).dimensions = d.dimTotals.map (fun kv =>
      ⟨kv.1, getDA d.dimScores kv.1, kv.2,
        jsRound100 (getDA d.dimScores kv.1) kv.2⟩) := rfl

theorem printJSON_fix_none (d : Report) :
    ∀ co ∈ (printJSON d).checksOut, (co.fix = none ↔ co.pass = true) := by
  intro co hco
  simp only [printJSON, List.mem_map] at hco
  obtain ⟨r, _, rfl⟩ := hco
  by_cases h : r.result.pass <;> simp [h]

theorem c8_json_fix (i : CollectedInputs) :
    ∀ co ∈ (printJSON (runChecks i)).checksOut, (co.fix = none ↔ co.pass = true) := by
  intro co hco
  exact printJSON_fix_none (runChecks i) co hco

/-- C8 witness: the passed API-key check appears in the structured output
of the all-empty run with no remediation text. -/
theorem c8_witness :
    (⟨"Safety Guards", "API keys stored in dedicated files (not hardcoded in CLAUDE.md)",
      true, "No leaked keys detected in CLAUDE.md", 5, none⟩ : CheckOut) ∈
        (printJSON (runChecks emptyInputs)).checksOut ∧
    ((none : Option String) = none ↔ (true : Bool) = true) :=
  ⟨by decide, c8_json_fix emptyInputs
    ⟨"Safety Guards", "API keys stored in dedicated files (not hardcoded in CLAUDE.md)",
      true, "No leaked keys detected in CLAUDE.md", 5, none⟩ (by decide)⟩

/-- C9 counterexample: with a malformed settings document the Collector
does yield an empty hook list, but not every hook-referencing check then
fails: the branch-protection check (registry index 2) reads the hook text
— it passes from hook commands alone on otherwise-empty inputs and fails
on all-empty inputs — yet on malformed settings plus a CLAUDE.md
mentioning push and main it passes. -/
theorem c9_counterexample :
    (mkInputs (.error "Unexpected end of JSON input")
      "Always push to main after review" noFlags (fun _ => false)).allHooks = [] ∧
    (checkOutcome 2 (mkInputs (.error "Unexpected end of JSON input")
      "Always push to main after review" noFlags (fun _ => false))).map
        Outcome.pass = some true ∧
    (checkOutcome 2 { emptyInputs with
      allHooks := [⟨"PreToolUse", "check push target"⟩] }).map
        Outcome.pass = some true ∧
    (checkOutcome 2 emptyInputs).map Outcome.pass = some false := by
  refine ⟨by decide, by decide, by decide, by decide⟩

/-- C9 amended: any malformed or unreadable hook-configuration document is
absorbed by `readJSON` (no exception escapes; the Collector yields an
empty hook list regardless of the other inputs), and every check whose
predicate depends only on hook data — the PreToolUse guard, the syntax
check, error detection, context monitoring and activity logging — then
reports failed with a descriptive non-empty detail; hook-referencing
checks with instruction-text or marker-file fallbacks may still pass. -/
theorem c9_amended (err : String) (md : String) (flags : MarkerFlags)
    (fs : String → Bool) :
    readJSON (.error err) = none ∧
    (mkInputs (.error err) md flags fs).allHooks = [] ∧
    checkOutcome 0 (mkInputs (.error err) md flags fs) =
      some ⟨false, "No PreToolUse hooks found"⟩ ∧
    checkOutcome 4 (mkInputs (.error err) md flags fs) =
      some ⟨false, "No syntax check hook found in PostToolUse"⟩ ∧
    checkOutcome 5 (mkInputs (.error err) md flags fs) =
      some ⟨false, "No error detection in command output"⟩ ∧
    checkOutcome 8 (mkInputs (.error err) md flags fs) =
      some ⟨false, "No context window monitoring"⟩ ∧
    checkOutcome 9 (mkInputs (.error err) md flags fs) =
      some ⟨false, "No activity logging configured"⟩ :=
  ⟨rfl, rfl, rfl, rfl, rfl, rfl, rfl⟩

/-- C10: run invariants — earned never exceeds total, overall and within
every category; `overallPercent` and every category percent are at most
100 (they are naturals, hence at least 0); every check awards its full
weight or nothing and all registry weights are positive; the grade is
always one of the four fixed labels. -/
theorem c10_invariants (i : CollectedInputs) :
    (runChecks i).earned ≤ (runChecks i).totalPts ∧
    (∀ cat, getDA (runChecks i).dimScores cat ≤ getDA (runChecks i).dimTotals cat) ∧
    (runChecks i).pct ≤ 100 ∧
    (∀ d ∈ (printJSON (runChecks i)).dimensions, d.percent ≤ 100) ∧
    ((runChecks i).grade = "Production Ready" ∨
      (runChecks i).grade = "Getting There" ∨
      (runChecks i).grade = "Needs Work" ∨
      (runChecks i).grade = "Critical") ∧
    (∀ r ∈ (runChecks i).results, r.pts = r.w ∨ r.pts = 0) ∧
    (∀ ch ∈ checks, 0 < ch.w) := by
  have hInv : StInv (runState i) := by
    rw [runState_eq]
    exact stInv_foldl i checks ⟨0, [], [], []⟩ (by decide) stInv_init
  have hearned := runChecks_earned_le i
  refine ⟨?_, ?_, ?_, ?_, ?_, ?_, ?_⟩
  · rw [runChecks_totalPts]
    exact hearned
  · intro cat
    rw [runChecks_dimScores_eq, runChecks_dimTotals_eq]
    exact hInv.pair cat
  · rw [runChecks_pct]
    exact jsRound100_le_100 _ 95 hearned
  · intro d hd
    rw [printJSON_dimensions] at hd
    obtain ⟨kv, hkv, rfl⟩ := List.mem_map.1 hd
    rw [runChecks_dimTotals_eq] at hkv
    have h1 : lookupA (runState i).dimTotals kv.1 = some kv.2 :=
      lookupA_of_mem_nodup _ hInv.nodupT kv hkv
    have h2 : getDA (runState i).dimTotals kv.1 = kv.2 := by
      rw [getDA, h1]
      rfl
    have h3 : getDA (runChecks i).dimScores kv.1 ≤ kv.2 := by
      rw [runChecks_dimScores_eq, ← h2]
      exact hInv.pair kv.1
    exact jsRound100_le_100 _ _ h3
  · rw [runChecks_grade]
    exact gradeOf_cases _
  · intro r hr
    rw [runChecks_results_eq] at hr
    exact hInv.rows r hr
  · decide

/-- C10 witness: the Safety Guards dimension entry of the all-empty run
(score 5 of recorded total 15, percent 33) is within bounds. -/
theorem c10_witness :
    (⟨"Safety Guards", 5, 15, 33⟩ : DimOut) ∈
      (printJSON (runChecks emptyInputs)).dimensions ∧
    (33 : Nat) ≤ 100 :=
  ⟨by decide, (c10_invariants emptyInputs).2.2.2.1
    ⟨"Safety Guards", 5, 15, 33⟩ (by decide)⟩

end HealthCheck

